import Mathlib

set_option autoImplicit false

namespace MangaNerd

/-!
Shallow embedding of the MangaNerdNet backend core (Go):
chat hub (internal/chat/hub.go), sync hub (internal/sync), notify registry
(internal/notify/notify.go), and the session authority
(internal/auth/jwt.go, middleware.go, user repository).

Go maps are modelled as association lists with decidable-equality keys;
the per-key semantics (lookup, insert-or-replace, delete) mirror map
semantics, and the hubs' unspecified map-iteration order is irrelevant to
the set-level properties proved below. Connections are identified by
opaque Nat ids; write outcomes on the network are injected through Bool
oracles, one per connection per broadcast pass.
-/

/-- lookup of the value stored under key k (Go map read); first match wins,
which agrees with map semantics because keys are unique in every reachable
state. -/
def lookupA {α β : Type} [DecidableEq α] (k : α) : List (α × β) → Option β
  | [] => none
  | p :: rest => if p.1 = k then some p.2 else lookupA k rest

/-- insert-or-replace under key k (Go map assignment m[k] = v). -/
def setA {α β : Type} [DecidableEq α] (k : α) (v : β) : List (α × β) → List (α × β)
  | [] => [(k, v)]
  | p :: rest => if p.1 = k then (k, v) :: rest else p :: setA k v rest

/-- delete of key k (Go builtin delete(m, k)). -/
def eraseA {α β : Type} [DecidableEq α] (k : α) (l : List (α × β)) : List (α × β) :=
  l.filter (fun p => decide (p.1 ≠ k))

namespace Auth

/-- User row of the users table (user repository, type User). -/
structure User where
  ID : String
  Username : String
  Email : String
  PasswordHash : String
  TokenVersion : Nat
deriving DecidableEq

/-- persistent user store keyed by user id, modelling the users table. -/
abbrev UserStore : Type := List (String × User)

/-- Claims carried by a session token. The Go struct in jwt.go declares
UserID, Username, Email and the embedded RegisteredClaims (Issuer, Subject,
ExpiresAt, IssuedAt); the middleware additionally reads a TokenVersion
field, which takes the Go zero value 0 whenever Sign does not assign it. -/
structure Claims where
  UserID : String
  Username : String
  Email : String
  Issuer : String
  Subject : String
  ExpiresAt : Nat
  IssuedAt : Nat
  TokenVersion : Nat
deriving DecidableEq

/-- TokenService from jwt.go (Secret []byte, Issuer, Duration). -/
structure TokenService where
  Secret : String
  Issuer : String
  Duration : Nat
deriving DecidableEq

/-- a signed token: the claims payload plus the algorithm recorded in the
token header; the cryptographic signature itself is abstracted away. -/
structure SignedToken where
  alg : String
  claims : Claims
deriving DecidableEq

/-- TokenService.Sign from jwt.go: builds Claims with UserID = u.ID,
Username, Email, and RegisteredClaims carrying Issuer, Subject = u.ID,
ExpiresAt = now + Duration, IssuedAt = now, then signs with
jwt.SigningMethodHS256. The struct literal assigns no TokenVersion, so
that field stays at the Go zero value 0 regardless of u.TokenVersion. -/
def TokenService.Sign (ts : TokenService) (u : User) (now : Nat) : SignedToken :=
  { alg := "HS256"
    claims :=
      { UserID := u.ID
        Username := u.Username
        Email := u.Email
        Issuer := ts.Issuer
        Subject := u.ID
        ExpiresAt := now + ts.Duration
        IssuedAt := now
        TokenVersion := 0 } }

/-- Repo.GetTokenVersion: SELECT token_version FROM users WHERE id = ?;
the sql.ErrNoRows branch returns (0, nil), i.e. version 0 with no error.
Other database faults are not injected in this model, so the error branch
of the Except result is never produced. -/
def GetTokenVersion (st : UserStore) (id : String) : Except String Nat :=
  match lookupA id st with
  | none => Except.ok 0
  | some u => Except.ok u.TokenVersion

/-- revocation check of AuthMiddleware (middleware.go lines 28-35), run
after a successful Parse: load the stored version and require equality
with the token's embedded version; any repository error or mismatch is
treated as unauthorized. -/
def authVersionOK (st : UserStore) (c : Claims) : Bool :=
  match GetTokenVersion st c.UserID with
  | Except.ok v => decide (v = c.TokenVersion)
  | Except.error _ => false

/-- Repo.BumpTokenVersion: UPDATE users SET token_version = token_version+1
WHERE id = ?; errors (Bool false) when no row was affected. -/
def BumpTokenVersion (st : UserStore) (id : String) : UserStore × Bool :=
  match lookupA id st with
  | none => (st, false)
  | some u => (setA id { u with TokenVersion := u.TokenVersion + 1 } st, true)

/-- failure injection points for the transaction inside
Repo.UpdatePasswordAndBumpTokenVersion: BeginTx, the UPDATE statement,
RowsAffected, and Commit can each fail; noFail is the clean run. -/
inductive TxFailure : Type
  | noFail
  | atBegin
  | atExec
  | atRows
  | atCommit
deriving DecidableEq

/-- Repo.UpdatePasswordAndBumpTokenVersion: inside one transaction, a
single UPDATE sets password_hash and token_version = token_version + 1
together; the deferred Rollback discards the pending update on every error
path (failed begin, failed exec, failed RowsAffected, zero rows affected,
failed commit), so an injected failure at any point leaves the store
unchanged. -/
def UpdatePasswordAndBumpTokenVersion (st : UserStore) (id passwordHash : String)
    (f : TxFailure) : UserStore × Bool :=
  match f with
  | TxFailure.atBegin => (st, false)
  | TxFailure.atExec => (st, false)
  | TxFailure.atRows => (st, false)
  | TxFailure.atCommit => (st, false)
  | TxFailure.noFail =>
      match lookupA id st with
      | none => (st, false)
      | some u =>
          (setA id { u with PasswordHash := passwordHash,
                            TokenVersion := u.TokenVersion + 1 } st, true)

end Auth

namespace Chat

/-- chat Message (hub.go): Type, Room, User, Text, At. Type is rendered as
Kind and the timestamp as a Nat (zero means the Go zero time). -/
structure Message where
  Kind : String
  Room : String
  User : String
  Text : String
  At : Nat
deriving DecidableEq

/-- a chat room: connections (map from connection to display name) plus
the bounded ordered history. -/
structure Room where
  connections : List (Nat × String)
  history : List Message
deriving DecidableEq

/-- chat Hub: rooms map and the history bound. -/
structure Hub where
  rooms : List (String × Room)
  historySize : Nat
deriving DecidableEq

def defaultHistorySize : Nat := 50

/-- NewHub: a non-positive requested size falls back to the default 50. -/
def NewHub (historySize : Int) : Hub :=
  { rooms := []
    historySize := if historySize ≤ 0 then defaultHistorySize else historySize.toNat }

/-- Go slice truncation history[len-size:] applied only when the length
exceeds the bound: keeps the last n entries, FIFO-evicting the oldest. -/
def truncLast {α : Type} (n : Nat) (l : List α) : List α :=
  if l.length > n then l.drop (l.length - n) else l

/-- Broadcast fills a zero At with the current time before marshalling. -/
def fillAt (now : Nat) (m : Message) : Message :=
  if m.At = 0 then { m with At := now } else m

def isChatMessage (m : Message) : Bool := m.Kind == "message"

/-- history update of one Broadcast call: message-kind events are appended
and the buffer truncated to the last n entries; presence events leave the
history untouched. -/
def histStep (n : Nat) (hist : List Message) (m : Message) : List Message :=
  if m.Kind = "message" then truncLast n (hist ++ [m]) else hist

/-- the history updates of a sequence of Broadcast calls, timestamps
filled per call. -/
def histFold (n : Nat) (hist : List Message) : List (Message × Nat) → List Message
  | [] => hist
  | (m, t) :: rest => histFold n (histStep n hist (fillAt t m)) rest

/-- Hub.Broadcast: fill the timestamp; if the target room is absent from
the rooms map, return with no effect; otherwise append message-kind events
to the history truncated to the last historySize entries, then attempt one
write per connection of the room, closing and deleting every connection
whose write fails. Returns the updated hub and the connections a delivery
was attempted to. Marshalling of the payload is modelled as always
succeeding. -/
def Hub.Broadcast (h : Hub) (msg : Message) (now : Nat) (wfail : Nat → Bool) :
    Hub × List Nat :=
  let m := fillAt now msg
  match lookupA m.Room h.rooms with
  | none => (h, [])
  | some r =>
      let hist := histStep h.historySize r.history m
      let conns := r.connections.filter (fun p => !(wfail p.1))
      ({ h with rooms := setA m.Room { connections := conns, history := hist } h.rooms },
        r.connections.map Prod.fst)

/-- Hub.Join: create the room if absent, register the connection under the
display name, copy the history as seen before joining, then broadcast a
user_join event (never persisted). -/
def Hub.Join (h : Hub) (room : String) (conn : Nat) (user : String) (now : Nat)
    (wfail : Nat → Bool) : Hub × List Message :=
  let r := (lookupA room h.rooms).getD { connections := [], history := [] }
  let r' := { r with connections := setA conn user r.connections }
  let h1 := { h with rooms := setA room r' h.rooms }
  ((h1.Broadcast { Kind := "user_join", Room := room, User := user, Text := "", At := now }
      now wfail).1, r.history)

/-- Hub.Leave: delete the connection from the room's map (a no-op when the
room or the connection is absent), then broadcast user_leave only when a
display name was associated. Returns the hub and whether user_leave was
broadcast. -/
def Hub.Leave (h : Hub) (room : String) (conn : Nat) (now : Nat) (wfail : Nat → Bool) :
    Hub × Bool :=
  match lookupA room h.rooms with
  | none => (h, false)
  | some r =>
      let user := (lookupA conn r.connections).getD ""
      let h1 := { h with
        rooms := setA room { r with connections := eraseA conn r.connections } h.rooms }
      if user = "" then (h1, false)
      else
        let lv : Message :=
          { Kind := "user_leave", Room := room, User := user, Text := "", At := now }
        ((h1.Broadcast lv now wfail).1, true)

/-- Hub.History: a copy of the stored history, empty for an unknown room. -/
def Hub.History (h : Hub) (room : String) : List Message :=
  match lookupA room h.rooms with
  | some r => r.history
  | none => []

/-- a sequence of Broadcast calls, each with its own clock value. -/
def Hub.BroadcastSeq (h : Hub) (wfail : Nat → Bool) : List (Message × Nat) → Hub
  | [] => h
  | (m, t) :: rest => ((h.Broadcast m t wfail).1).BroadcastSeq wfail rest

end Chat

namespace Sync

/-- sync Hub: live sets of TCP and WebSocket subscribers. -/
structure Hub where
  clients : List Nat
  wsClients : List Nat
deriving DecidableEq

def Hub.Add (h : Hub) (c : Nat) : Hub :=
  if h.clients.contains c then h else { h with clients := h.clients ++ [c] }

def Hub.AddWS (h : Hub) (c : Nat) : Hub :=
  if h.wsClients.contains c then h else { h with wsClients := h.wsClients ++ [c] }

/-- Hub.Remove: delete from the live set and close the transport; map
deletion of an absent key is a no-op. -/
def Hub.Remove (h : Hub) (c : Nat) : Hub :=
  { h with clients := h.clients.filter (fun x => x != c) }

def Hub.RemoveWS (h : Hub) (c : Nat) : Hub :=
  { h with wsClients := h.wsClients.filter (fun x => x != c) }

/-- one delivery pass of BroadcastJSON over a snapshot of connections:
each connection gets exactly one write attempt; a failed writer is closed
and dropped, without aborting the pass. Returns (survivors, closed,
attempted). -/
def deliver (wfail : Nat → Bool) : List Nat → List Nat × List Nat × List Nat
  | [] => ([], [], [])
  | c :: rest =>
      let r := deliver wfail rest
      if wfail c then (r.1, c :: r.2.1, c :: r.2.2)
      else (c :: r.1, r.2.1, c :: r.2.2)

/-- Hub.BroadcastJSON: marshal once (modelled as always succeeding), then
run the delivery pass over the TCP clients and over the WebSocket clients.
Returns the hub left behind plus, per transport, the closed connections
and the connections a write was attempted to. -/
def Hub.BroadcastJSON (h : Hub) (failT failW : Nat → Bool) :
    Hub × (List Nat × List Nat) × (List Nat × List Nat) :=
  let t := deliver failT h.clients
  let w := deliver failW h.wsClients
  ({ clients := t.1, wsClients := w.1 }, (t.2.1, t.2.2), (w.2.1, w.2.2))

end Sync

namespace Notify

/-- NotifyClient: user id plus UDP address (modelled as an opaque Nat). -/
structure Client where
  UserID : String
  Addr : Nat
deriving DecidableEq

/-- Registry.clients: map from user id to Client. -/
abbrev Registry : Type := List (String × Client)

/-- Registry.Register: drop empty user ids and nil addresses (Option.none),
otherwise upsert with last-write-wins per user id. -/
def Register (reg : Registry) (userID : String) (addr : Option Nat) : Registry :=
  match addr with
  | none => reg
  | some a => if userID = "" then reg else setA userID { UserID := userID, Addr := a } reg

/-- Registry.Remove: delete the registration of one user id. -/
def Remove (reg : Registry) (userID : String) : Registry := eraseA userID reg

/-- Registry.Snapshot: point-in-time copy of all registrations. -/
def Snapshot (reg : Registry) : List Client := reg.map Prod.snd

/-- Server.sendWithRetry: one send (outcome ok1); on failure exactly one
retry (outcome ok2); if the retry also fails, the client is deregistered.
Returns the updated registry and how many sends were attempted. -/
def sendWithRetry (reg : Registry) (c : Client) (ok1 ok2 : Bool) : Registry × Nat :=
  if ok1 then (reg, 1)
  else if ok2 then (reg, 2)
  else (Remove reg c.UserID, 2)

/-- the loop body of BroadcastNewChapter over the snapshot, also recording
the number of sends attempted per snapshotted client. -/
def broadcastLoop (ok1 ok2 : String → Bool) :
    Registry → List Client → Registry × List (String × Nat)
  | reg, [] => (reg, [])
  | reg, c :: rest =>
      let p := sendWithRetry reg c (ok1 c.UserID) (ok2 c.UserID)
      let q := broadcastLoop ok1 ok2 p.1 rest
      (q.1, (c.UserID, p.2) :: q.2)

/-- Server.BroadcastNewChapter: snapshot the registry, then run
sendWithRetry for each snapshotted client; send outcomes are injected per
user id and attempt. -/
def BroadcastNewChapter (reg : Registry) (ok1 ok2 : String → Bool) :
    Registry × List (String × Nat) :=
  broadcastLoop ok1 ok2 reg (Snapshot reg)

/-- the user ids of the snapshotted clients whose send and retry both
failed; exactly these are deregistered by the broadcast. -/
def failedIds (ok1 ok2 : String → Bool) (snap : List Client) : List String :=
  (snap.filter (fun c => !(ok1 c.UserID) && !(ok2 c.UserID))).map Client.UserID

end Notify

/-- token service instance used by the concrete authentication scenarios. -/
def demoTS : Auth.TokenService := { Secret := "s3cret", Issuer := "mangahub", Duration := 3600 }

/-- user u1 at token version 0, as stored at account creation. -/
def demoUserV0 : Auth.User :=
  { ID := "u1", Username := "alice", Email := "alice@example.com"
    PasswordHash := "hash0", TokenVersion := 0 }

/-- store holding exactly u1 at version 0. -/
def demoStore0 : Auth.UserStore := [("u1", demoUserV0)]

/-- the store after BumpTokenVersion(u1), i.e. u1 at version 1. -/
def demoStore1 : Auth.UserStore := (Auth.BumpTokenVersion demoStore0 "u1").1

/-- claims of a validly signed, unexpired token for a user id absent from
the store, embedding token version 0. -/
def demoGhostClaims : Auth.Claims :=
  { UserID := "ghost", Username := "ghost", Email := "ghost@example.com"
    Issuer := "mangahub", Subject := "ghost", ExpiresAt := 4000, IssuedAt := 100
    TokenVersion := 0 }

/-- a message-kind chat event for room "general". -/
def demoChatMsg : Chat.Message :=
  { Kind := "message", Room := "general", User := "alice", Text := "hi", At := 5 }

/-- a hub whose room "general" exists with no connections and no history,
as left behind by a Join followed by a Leave. -/
def demoChatHub : Chat.Hub :=
  { rooms := [("general", { connections := [], history := [] })], historySize := 50 }

/-- a hub whose room "general" holds two connections. -/
def demoChatHub2 : Chat.Hub :=
  { rooms := [("general", { connections := [(1, "alice"), (2, "bob")], history := [] })]
    historySize := 50 }

/-- a sync hub with two TCP subscribers and one WebSocket subscriber. -/
def demoSyncHub : Sync.Hub := { clients := [1, 2], wsClients := [3] }

/-- a registry with two registered clients. -/
def demoRegistry : Notify.Registry :=
  [("u1", { UserID := "u1", Addr := 10 }), ("u2", { UserID := "u2", Addr := 11 })]

/-! Helper lemmas about the association-list operations. -/

theorem lookupA_setA_self {α β : Type} [DecidableEq α] (k : α) (v : β) (l : List (α × β)) :
    lookupA k (setA k v l) = some v := by
  induction l with
  | nil => simp [setA, lookupA]
  | cons p rest ih =>
      by_cases h : p.1 = k
      · simp [setA, h, lookupA]
      · simp [setA, h, lookupA, ih]

theorem lookupA_setA_ne {α β : Type} [DecidableEq α] (k k' : α) (v : β) (l : List (α × β))
    (h : k' ≠ k) : lookupA k' (setA k v l) = lookupA k' l := by
  induction l with
  | nil => simp [setA, lookupA, Ne.symm h]
  | cons p rest ih =>
      by_cases hp : p.1 = k
      · subst hp
        simp [setA, lookupA, Ne.symm h]
      · by_cases hq : p.1 = k'
        · simp [setA, hp, lookupA, hq, h]
        · simp [setA, hp, lookupA, hq, ih]

theorem setA_setA {α β : Type} [DecidableEq α] (k : α) (v : β) (l : List (α × β)) :
    setA k v (setA k v l) = setA k v l := by
  induction l with
  | nil => simp [setA]
  | cons p rest ih =>
      by_cases h : p.1 = k
      · simp [setA, h]
      · simp [setA, h, ih]

theorem lookupA_eraseA_self {α β : Type} [DecidableEq α] (k : α) (l : List (α × β)) :
    lookupA k (eraseA k l) = none := by
  induction l with
  | nil => simp [eraseA, lookupA]
  | cons p rest ih =>
      by_cases h : p.1 = k
      · simpa [eraseA, h, List.filter] using ih
      · simpa [eraseA, h, List.filter, lookupA] using ih

theorem eraseA_of_lookupA_none {α β : Type} [DecidableEq α] (k : α) (l : List (α × β))
    (h : lookupA k l = none) : eraseA k l = l := by
  induction l with
  | nil => simp [eraseA]
  | cons p rest ih =>
      by_cases hp : p.1 = k
      · simp [lookupA, hp] at h
      · simp [lookupA, hp] at h
        simp [eraseA, List.filter, hp] at ih ⊢
        exact ih h

theorem lookupA_filter_none {α β : Type} [DecidableEq α] (k : α) (l : List (α × β))
    (q : α × β → Bool) (h : lookupA k l = none) : lookupA k (l.filter q) = none := by
  induction l with
  | nil => simp [lookupA]
  | cons p rest ih =>
      by_cases hp : p.1 = k
      · simp [lookupA, hp] at h
      · simp [lookupA, hp] at h
        by_cases hq : q p
        · simp [List.filter, hq, lookupA, hp, ih h]
        · simp [List.filter, hq, ih h]

/-! Helper lemmas about history truncation and the chat broadcast step. -/

theorem truncLast_eq_drop {α : Type} (n : Nat) (l : List α) :
    Chat.truncLast n l = l.drop (l.length - n) := by
  unfold Chat.truncLast
  split
  · rfl
  · next h =>
      have h0 : l.length - n = 0 := by omega
      simp [h0]

theorem truncLast_length_le {α : Type} (n : Nat) (l : List α) :
    (Chat.truncLast n l).length ≤ n := by
  unfold Chat.truncLast
  split
  · next h => simp only [List.length_drop]; omega
  · next h => omega

theorem truncLast_of_length_le {α : Type} (n : Nat) (l : List α) (h : l.length ≤ n) :
    Chat.truncLast n l = l := by
  unfold Chat.truncLast
  rw [if_neg]
  omega

theorem truncLast_truncLast_append {α : Type} (n : Nat) (xs ys : List α) :
    Chat.truncLast n (Chat.truncLast n xs ++ ys) = Chat.truncLast n (xs ++ ys) := by
  by_cases hx : xs.length ≤ n
  · rw [truncLast_of_length_le n xs hx]
  · rw [truncLast_eq_drop, truncLast_eq_drop, truncLast_eq_drop,
      List.drop_append_eq_append_drop, List.drop_append_eq_append_drop, List.drop_drop]
    congr 1
    · congr 1
      simp only [List.length_append, List.length_drop]
      omega
    · congr 1
      simp only [List.length_append, List.length_drop]
      omega

theorem mem_truncLast_append_last {α : Type} (n : Nat) (l : List α) (x : α) (hn : 0 < n) :
    x ∈ Chat.truncLast n (l ++ [x]) := by
  rw [truncLast_eq_drop, List.drop_append_eq_append_drop]
  have h0 : (l ++ [x]).length - n - l.length = 0 := by
    simp only [List.length_append, List.length_singleton]
    omega
  rw [h0]
  simp

theorem fillAt_Room (now : Nat) (m : Chat.Message) : (Chat.fillAt now m).Room = m.Room := by
  unfold Chat.fillAt
  split <;> rfl

theorem fillAt_Kind (now : Nat) (m : Chat.Message) : (Chat.fillAt now m).Kind = m.Kind := by
  unfold Chat.fillAt
  split <;> rfl

theorem histStep_length_le (n : Nat) (hist : List Chat.Message) (m : Chat.Message)
    (hlen : hist.length ≤ n) : (Chat.histStep n hist m).length ≤ n := by
  unfold Chat.histStep
  split
  · exact truncLast_length_le _ _
  · exact hlen

theorem histFold_eq (n : Nat) (msgs : List (Chat.Message × Nat)) :
    ∀ hist : List Chat.Message, hist.length ≤ n →
      Chat.histFold n hist msgs =
        Chat.truncLast n
          (hist ++ (msgs.map (fun p => Chat.fillAt p.2 p.1)).filter Chat.isChatMessage) := by
  induction msgs with
  | nil =>
      intro hist hlen
      simp [Chat.histFold, truncLast_of_length_le n hist hlen]
  | cons p rest ih =>
      intro hist hlen
      obtain ⟨m, t⟩ := p
      show Chat.histFold n (Chat.histStep n hist (Chat.fillAt t m)) rest = _
      rw [ih _ (histStep_length_le n hist _ hlen)]
      by_cases hk : (Chat.fillAt t m).Kind = "message"
      · rw [Chat.histStep, if_pos hk, truncLast_truncLast_append, List.append_assoc]
        congr 1
        simp only [List.map_cons, List.filter_cons, Chat.isChatMessage]
        rw [if_pos (by simp [hk]), List.singleton_append]
      · rw [Chat.histStep, if_neg hk]
        congr 1
        simp only [List.map_cons, List.filter_cons, Chat.isChatMessage]
        rw [if_neg (by simp [hk])]

theorem broadcast_step (h : Chat.Hub) (m : Chat.Message) (t : Nat) (wfail : Nat → Bool)
    (r : Chat.Room) (hr : lookupA m.Room h.rooms = some r) :
    h.Broadcast m t wfail =
      ({ h with
          rooms := setA m.Room
            { connections := r.connections.filter (fun p => !(wfail p.1)),
              history := Chat.histStep h.historySize r.history (Chat.fillAt t m) }
            h.rooms },
        r.connections.map Prod.fst) := by
  unfold Chat.Hub.Broadcast
  simp only [fillAt_Room, hr]

theorem broadcastSeq_room_history (room : String) (wfail : Nat → Bool)
    (msgs : List (Chat.Message × Nat)) :
    ∀ (h : Chat.Hub) (r : Chat.Room), lookupA room h.rooms = some r →
      (∀ p ∈ msgs, (p.1).Room = room) →
      (Chat.Hub.BroadcastSeq h wfail msgs).historySize = h.historySize ∧
      ∃ r', lookupA room (Chat.Hub.BroadcastSeq h wfail msgs).rooms = some r' ∧
        r'.history = Chat.histFold h.historySize r.history msgs := by
  induction msgs with
  | nil =>
      intro h r hr _
      exact ⟨rfl, r, hr, rfl⟩
  | cons p rest ih =>
      intro h r hr hroom
      obtain ⟨m, t⟩ := p
      have hm : m.Room = room := hroom (m, t) (List.mem_cons_self _ _)
      have hstep := broadcast_step h m t wfail r (by rw [hm]; exact hr)
      have hr1 : lookupA room ((h.Broadcast m t wfail).1).rooms =
          some (Chat.Room.mk (r.connections.filter (fun p => !(wfail p.1)))
            (Chat.histStep h.historySize r.history (Chat.fillAt t m))) := by
        rw [hstep, hm]
        exact lookupA_setA_self _ _ _
      have hsz1 : ((h.Broadcast m t wfail).1).historySize = h.historySize := by
        rw [hstep]
      obtain ⟨hsz, r', hr', hh⟩ := ih ((h.Broadcast m t wfail).1) _ hr1
        (fun q hq => hroom q (List.mem_cons_of_mem _ hq))
      refine ⟨?_, r', ?_, ?_⟩
      · show (Chat.Hub.BroadcastSeq (h.Broadcast m t wfail).1 wfail rest).historySize
            = h.historySize
        rw [hsz, hsz1]
      · show lookupA room (Chat.Hub.BroadcastSeq (h.Broadcast m t wfail).1 wfail rest).rooms
            = some r'
        exact hr'
      · show r'.history = Chat.histFold h.historySize
            (Chat.histStep h.historySize r.history (Chat.fillAt t m)) rest
        rw [hh, hsz1]

/-! Chat hub history and broadcast claims. -/

/-- C3 counterexample: on a fresh hub, a message-kind Broadcast to a room
that has never been joined is dropped (Broadcast returns early when the
room is absent from the rooms map), so History afterwards is empty rather
than containing that message-kind event. -/
theorem broadcast_to_unjoined_room_is_dropped :
    Chat.isChatMessage demoChatMsg = true ∧ demoChatMsg.Room = "general" ∧
    Chat.Hub.History ((Chat.NewHub 50).Broadcast demoChatMsg 5 (fun _ => false)).1 "general"
      = [] ∧
    Chat.Hub.History ((Chat.NewHub 50).Broadcast demoChatMsg 5 (fun _ => false)).1 "general"
      ≠ [Chat.fillAt 5 demoChatMsg] := by
  decide

/-- C3 (amended): provided the target room exists in the hub (rooms are
created by Join and never removed; a Broadcast naming an absent room is
dropped), after any sequence of Broadcast calls on that room, History
returns the last historySize of the room's prior history followed by
exactly the message-kind events among those broadcasts (with zero
timestamps filled at broadcast time), in call order, FIFO-evicting the
oldest, and never more than historySize entries; user_join and user_leave
events are never stored. -/
theorem history_is_filtered_broadcasts (h : Chat.Hub) (room : String) (r : Chat.Room)
    (wfail : Nat → Bool) (msgs : List (Chat.Message × Nat))
    (hr : lookupA room h.rooms = some r) (hroom : ∀ p ∈ msgs, (p.1).Room = room)
    (hlen : r.history.length ≤ h.historySize) :
    Chat.Hub.History (Chat.Hub.BroadcastSeq h wfail msgs) room =
      Chat.truncLast h.historySize
        (r.history ++ (msgs.map (fun p => Chat.fillAt p.2 p.1)).filter Chat.isChatMessage) ∧
    (Chat.Hub.History (Chat.Hub.BroadcastSeq h wfail msgs) room).length ≤ h.historySize := by
  obtain ⟨hsz, r', hr', hh⟩ := broadcastSeq_room_history room wfail msgs h r hr hroom
  have hist : Chat.Hub.History (Chat.Hub.BroadcastSeq h wfail msgs) room = r'.history := by
    unfold Chat.Hub.History
    rw [hr']
  rw [hist, hh, histFold_eq h.historySize msgs r.history hlen]
  exact ⟨rfl, truncLast_length_le _ _⟩

/-- witness for C3 (amended): room "general" exists and empty; broadcast a
message, a presence event, and another message. -/
theorem history_is_filtered_broadcasts_witness :
    lookupA "general" demoChatHub.rooms =
      some { connections := [], history := [] } ∧
    (∀ p ∈ [(demoChatMsg, (5 : Nat)),
        ({ demoChatMsg with Kind := "user_join", At := 0 } : Chat.Message) |> fun j => (j, (6 : Nat)),
        ({ demoChatMsg with Text := "again" } : Chat.Message) |> fun m2 => (m2, (7 : Nat))],
      (Prod.fst p).Room = "general") ∧
    (([] : List Chat.Message).length ≤ demoChatHub.historySize) ∧
    (Chat.Hub.History
        (Chat.Hub.BroadcastSeq demoChatHub (fun _ => false)
          [(demoChatMsg, 5),
           ({ demoChatMsg with Kind := "user_join", At := 0 }, 6),
           ({ demoChatMsg with Text := "again" }, 7)]) "general" =
      Chat.truncLast demoChatHub.historySize
        (([] : List Chat.Message) ++
          (([(demoChatMsg, (5 : Nat)),
             ({ demoChatMsg with Kind := "user_join", At := 0 }, 6),
             ({ demoChatMsg with Text := "again" }, 7)].map
               (fun p => Chat.fillAt p.2 p.1)).filter Chat.isChatMessage)) ∧
    (Chat.Hub.History
        (Chat.Hub.BroadcastSeq demoChatHub (fun _ => false)
          [(demoChatMsg, 5),
           ({ demoChatMsg with Kind := "user_join", At := 0 }, 6),
           ({ demoChatMsg with Text := "again" }, 7)]) "general").length ≤
      demoChatHub.historySize) :=
  ⟨by decide, by decide, by decide,
    history_is_filtered_broadcasts demoChatHub "general" { connections := [], history := [] }
      (fun _ => false) _ (by decide) (by decide) (by decide)⟩

/-- C8: broadcasting a message-kind event to a room that exists with zero
registered connections returns (Broadcast is total and error-free) and
appends the event to that room's history, subject to the historySize
bound. -/
theorem broadcast_empty_room_updates_history (h : Chat.Hub) (room : String)
    (r : Chat.Room) (msg : Chat.Message) (now : Nat) (wfail : Nat → Bool)
    (hr : lookupA room h.rooms = some r) (_hconn : r.connections = [])
    (hkind : msg.Kind = "message") (hroom : msg.Room = room) (hsz : 0 < h.historySize) :
    Chat.Hub.History (h.Broadcast msg now wfail).1 room =
      Chat.truncLast h.historySize (r.history ++ [Chat.fillAt now msg]) ∧
    Chat.fillAt now msg ∈ Chat.Hub.History (h.Broadcast msg now wfail).1 room := by
  have hstep := broadcast_step h msg now wfail r (by rw [hroom]; exact hr)
  have hstep2 : Chat.histStep h.historySize r.history (Chat.fillAt now msg) =
      Chat.truncLast h.historySize (r.history ++ [Chat.fillAt now msg]) := by
    unfold Chat.histStep
    rw [if_pos (by rw [fillAt_Kind]; exact hkind)]
  have hist : Chat.Hub.History (h.Broadcast msg now wfail).1 room =
      Chat.histStep h.historySize r.history (Chat.fillAt now msg) := by
    rw [hstep]
    unfold Chat.Hub.History
    rw [hroom, lookupA_setA_self]
  refine ⟨by rw [hist, hstep2], ?_⟩
  rw [hist, hstep2]
  exact mem_truncLast_append_last _ _ _ hsz

/-- witness for C8: room "general" exists with no connections; broadcast
one message-kind event. -/
theorem broadcast_empty_room_updates_history_witness :
    lookupA "general" demoChatHub.rooms = some { connections := [], history := [] } ∧
    ({ connections := [], history := [] } : Chat.Room).connections = [] ∧
    demoChatMsg.Kind = "message" ∧ demoChatMsg.Room = "general" ∧
    0 < demoChatHub.historySize ∧
    (Chat.Hub.History (demoChatHub.Broadcast demoChatMsg 5 (fun _ => false)).1 "general" =
        Chat.truncLast demoChatHub.historySize
          (([] : List Chat.Message) ++ [Chat.fillAt 5 demoChatMsg]) ∧
      Chat.fillAt 5 demoChatMsg ∈
        Chat.Hub.History (demoChatHub.Broadcast demoChatMsg 5 (fun _ => false)).1 "general") :=
  ⟨by decide, by decide, by decide, by decide, by decide,
    broadcast_empty_room_updates_history demoChatHub "general"
      { connections := [], history := [] } demoChatMsg 5 (fun _ => false)
      (by decide) (by decide) (by decide) (by decide) (by decide)⟩

/-! Removal idempotence: helper lemmas and the claim. -/

theorem leave_absent_conn (g : Chat.Hub) (room : String) (conn now : Nat)
    (f : Nat → Bool) (R : Chat.Room) (hg : lookupA room g.rooms = some R)
    (hc : lookupA conn R.connections = none)
    (hset : setA room R g.rooms = g.rooms) :
    Chat.Hub.Leave g room conn now f = (g, false) := by
  simp only [Chat.Hub.Leave, hg, hc, Option.getD_none, if_pos,
    eraseA_of_lookupA_none conn R.connections hc]
  have h2 : setA room (Chat.Room.mk R.connections R.history) g.rooms = g.rooms := hset
  rw [h2]

theorem leave_second_noop (h : Chat.Hub) (room : String) (conn : Nat)
    (now1 now2 : Nat) (f1 f2 : Nat → Bool) :
    Chat.Hub.Leave ((Chat.Hub.Leave h room conn now1 f1).1) room conn now2 f2
      = ((Chat.Hub.Leave h room conn now1 f1).1, false) := by
  cases hl : lookupA room h.rooms with
  | none =>
      have h1 : Chat.Hub.Leave h room conn now1 f1 = (h, false) := by
        simp [Chat.Hub.Leave, hl]
      rw [h1]
      simp [Chat.Hub.Leave, hl]
  | some r =>
      suffices hs : ∃ R,
          lookupA room ((Chat.Hub.Leave h room conn now1 f1).1).rooms = some R ∧
          lookupA conn R.connections = none ∧
          setA room R ((Chat.Hub.Leave h room conn now1 f1).1).rooms
            = ((Chat.Hub.Leave h room conn now1 f1).1).rooms by
        obtain ⟨R, hg, hc, hset⟩ := hs
        exact leave_absent_conn _ room conn now2 f2 R hg hc hset
      by_cases hu : (lookupA conn r.connections).getD "" = ""
      · have h1 : Chat.Hub.Leave h room conn now1 f1 =
            (Chat.Hub.mk
              (setA room (Chat.Room.mk (eraseA conn r.connections) r.history) h.rooms)
              h.historySize, false) := by
          simp [Chat.Hub.Leave, hl, hu]
        refine ⟨Chat.Room.mk (eraseA conn r.connections) r.history, ?_, ?_, ?_⟩
        · rw [h1]
          exact lookupA_setA_self _ _ _
        · exact lookupA_eraseA_self _ _
        · rw [h1]
          exact setA_setA _ _ _
      · have hbl := broadcast_step
            (Chat.Hub.mk
              (setA room (Chat.Room.mk (eraseA conn r.connections) r.history) h.rooms)
              h.historySize)
            (Chat.Message.mk "user_leave" room ((lookupA conn r.connections).getD "") "" now1)
            now1 f1 (Chat.Room.mk (eraseA conn r.connections) r.history)
            (lookupA_setA_self _ _ _)
        have h1 : Chat.Hub.Leave h room conn now1 f1 =
            (((Chat.Hub.mk
                (setA room (Chat.Room.mk (eraseA conn r.connections) r.history) h.rooms)
                h.historySize).Broadcast
              (Chat.Message.mk "user_leave" room ((lookupA conn r.connections).getD "") "" now1)
              now1 f1).1, true) := by
          simp [Chat.Hub.Leave, hl, hu]
        refine ⟨Chat.Room.mk
            ((eraseA conn r.connections).filter (fun p => !(f1 p.1)))
            (Chat.histStep h.historySize r.history
              (Chat.fillAt now1
                (Chat.Message.mk "user_leave" room
                  ((lookupA conn r.connections).getD "") "" now1))), ?_, ?_, ?_⟩
        · rw [h1, hbl]
          exact lookupA_setA_self _ _ _
        · exact lookupA_filter_none _ _ _ (lookupA_eraseA_self _ _)
        · rw [h1, hbl]
          exact setA_setA _ _ _

/-- C9: connection removal is idempotent on every hub: a second Sync
Remove (or RemoveWS) of the same connection leaves the live set exactly as
after one removal, and a second Chat Leave of the same connection from the
same room leaves the hub unchanged and broadcasts no user_leave event;
double removal is never an error. -/
theorem removal_idempotent (s : Sync.Hub) (c : Nat) (h : Chat.Hub) (room : String)
    (conn now1 now2 : Nat) (f1 f2 : Nat → Bool) :
    (s.Remove c).Remove c = s.Remove c ∧
    (s.RemoveWS c).RemoveWS c = s.RemoveWS c ∧
    Chat.Hub.Leave ((Chat.Hub.Leave h room conn now1 f1).1) room conn now2 f2
      = ((Chat.Hub.Leave h room conn now1 f1).1, false) := by
  refine ⟨?_, ?_, ?_⟩
  · unfold Sync.Hub.Remove
    simp [List.filter_filter]
  · unfold Sync.Hub.RemoveWS
    simp [List.filter_filter]
  · exact leave_second_noop h room conn now1 now2 f1 f2

/-! Fault isolation of broadcasts. -/

theorem deliver_spec (wfail : Nat → Bool) (l : List Nat) :
    (Sync.deliver wfail l).1 = l.filter (fun c => !(wfail c)) ∧
    (Sync.deliver wfail l).2.1 = l.filter wfail ∧
    (Sync.deliver wfail l).2.2 = l := by
  induction l with
  | nil => exact ⟨rfl, rfl, rfl⟩
  | cons c rest ih =>
      obtain ⟨h1, h2, h3⟩ := ih
      by_cases hc : wfail c
      · simp [Sync.deliver, hc, h1, h2, h3, List.filter_cons]
      · simp [Sync.deliver, hc, h1, h2, h3, List.filter_cons]

/-- C5: during one broadcast, a delivery is attempted to every registered
connection of the snapshot (sync hub: both transports; chat hub: every
connection of the target room) regardless of other connections' failures,
and when the call returns the failed connections are exactly the closed
ones and are absent from the live set, while the non-failing connections
all remain. -/
theorem broadcast_isolates_write_failures (s : Sync.Hub) (failT failW : Nat → Bool)
    (h : Chat.Hub) (msg : Chat.Message) (now : Nat) (cfail : Nat → Bool) (r : Chat.Room)
    (hr : lookupA msg.Room h.rooms = some r) :
    ((s.BroadcastJSON failT failW).2.1.2 = s.clients ∧
      (s.BroadcastJSON failT failW).2.2.2 = s.wsClients) ∧
    (∀ c, c ∈ (s.BroadcastJSON failT failW).1.clients ↔ c ∈ s.clients ∧ failT c = false) ∧
    (∀ c, c ∈ (s.BroadcastJSON failT failW).2.1.1 ↔ c ∈ s.clients ∧ failT c = true) ∧
    (∀ c, c ∈ (s.BroadcastJSON failT failW).1.wsClients ↔
      c ∈ s.wsClients ∧ failW c = false) ∧
    (∀ c, c ∈ (s.BroadcastJSON failT failW).2.2.1 ↔ c ∈ s.wsClients ∧ failW c = true) ∧
    (h.Broadcast msg now cfail).2 = r.connections.map Prod.fst ∧
    (∃ r', lookupA msg.Room ((h.Broadcast msg now cfail).1).rooms = some r' ∧
      ∀ p, p ∈ r'.connections ↔ p ∈ r.connections ∧ cfail p.1 = false) := by
  obtain ⟨ht1, ht2, ht3⟩ := deliver_spec failT s.clients
  obtain ⟨hw1, hw2, hw3⟩ := deliver_spec failW s.wsClients
  have hstep := broadcast_step h msg now cfail r hr
  refine ⟨⟨ht3, hw3⟩, ?_, ?_, ?_, ?_, ?_, ?_⟩
  · intro c
    show c ∈ (Sync.deliver failT s.clients).1 ↔ _
    rw [ht1]
    simp [List.mem_filter]
  · intro c
    show c ∈ (Sync.deliver failT s.clients).2.1 ↔ _
    rw [ht2]
    simp [List.mem_filter]
  · intro c
    show c ∈ (Sync.deliver failW s.wsClients).1 ↔ _
    rw [hw1]
    simp [List.mem_filter]
  · intro c
    show c ∈ (Sync.deliver failW s.wsClients).2.1 ↔ _
    rw [hw2]
    simp [List.mem_filter]
  · rw [hstep]
  · refine ⟨Chat.Room.mk (r.connections.filter (fun p => !(cfail p.1)))
      (Chat.histStep h.historySize r.history (Chat.fillAt now msg)), ?_, ?_⟩
    · rw [hstep]
      exact lookupA_setA_self _ _ _
    · intro p
      simp [List.mem_filter]

/-- witness for C5: two TCP subscribers of which one fails, one WebSocket
subscriber, and a chat room with two connections of which one fails. -/
theorem broadcast_isolates_write_failures_witness :
    lookupA demoChatMsg.Room demoChatHub2.rooms =
      some (Chat.Room.mk [(1, "alice"), (2, "bob")] []) ∧
    (((demoSyncHub.BroadcastJSON (fun c => c == 1) (fun _ => false)).2.1.2
        = demoSyncHub.clients ∧
      (demoSyncHub.BroadcastJSON (fun c => c == 1) (fun _ => false)).2.2.2
        = demoSyncHub.wsClients) ∧
    (∀ c, c ∈ (demoSyncHub.BroadcastJSON (fun c => c == 1) (fun _ => false)).1.clients ↔
      c ∈ demoSyncHub.clients ∧ (c == 1) = false) ∧
    (∀ c, c ∈ (demoSyncHub.BroadcastJSON (fun c => c == 1) (fun _ => false)).2.1.1 ↔
      c ∈ demoSyncHub.clients ∧ (c == 1) = true) ∧
    (∀ c, c ∈ (demoSyncHub.BroadcastJSON (fun c => c == 1) (fun _ => false)).1.wsClients ↔
      c ∈ demoSyncHub.wsClients ∧ (fun (_ : Nat) => false) c = false) ∧
    (∀ c, c ∈ (demoSyncHub.BroadcastJSON (fun c => c == 1) (fun _ => false)).2.2.1 ↔
      c ∈ demoSyncHub.wsClients ∧ (fun (_ : Nat) => false) c = true) ∧
    (demoChatHub2.Broadcast demoChatMsg 9 (fun c => c == 2)).2 =
      (Chat.Room.mk [(1, "alice"), (2, "bob")] ([] : List Chat.Message)).connections.map
        Prod.fst ∧
    (∃ r', lookupA demoChatMsg.Room
        ((demoChatHub2.Broadcast demoChatMsg 9 (fun c => c == 2)).1).rooms = some r' ∧
      ∀ p, p ∈ r'.connections ↔
        p ∈ (Chat.Room.mk [(1, "alice"), (2, "bob")] ([] : List Chat.Message)).connections ∧
          (p.1 == 2) = false)) :=
  ⟨by decide,
    broadcast_isolates_write_failures demoSyncHub (fun c => c == 1) (fun _ => false)
      demoChatHub2 demoChatMsg 9 (fun c => c == 2)
      (Chat.Room.mk [(1, "alice"), (2, "bob")] []) (by decide)⟩

/-! Notify registry: last-write-wins registration and the retry policy. -/

theorem filter_key_of_not_mem {α β : Type} [DecidableEq α] (k : α) (l : List (α × β))
    (h : k ∉ l.map Prod.fst) : l.filter (fun p => decide (p.1 = k)) = [] := by
  induction l with
  | nil => rfl
  | cons p rest ih =>
      simp only [List.map_cons, List.mem_cons] at h
      push_neg at h
      obtain ⟨h1, h2⟩ := h
      simp [List.filter_cons, Ne.symm h1, ih h2]

theorem mem_keys_setA {α β : Type} [DecidableEq α] (k x : α) (v : β) (l : List (α × β)) :
    x ∈ (setA k v l).map Prod.fst ↔ x = k ∨ x ∈ l.map Prod.fst := by
  induction l with
  | nil => simp [setA]
  | cons p rest ih =>
      by_cases hp : p.1 = k
      · subst hp
        simp only [setA]
        simp only [if_true]
        simp
      · simp only [setA]
        rw [if_neg hp]
        simp only [List.map_cons, List.mem_cons, ih]
        tauto

theorem nodup_keys_setA {α β : Type} [DecidableEq α] (k : α) (v : β) (l : List (α × β))
    (h : (l.map Prod.fst).Nodup) : ((setA k v l).map Prod.fst).Nodup := by
  induction l with
  | nil => simp [setA]
  | cons p rest ih =>
      simp only [List.map_cons, List.nodup_cons] at h
      obtain ⟨hp, hrest⟩ := h
      by_cases hk : p.1 = k
      · subst hk
        simp only [setA]
        simp only [if_true]
        simp only [List.map_cons, List.nodup_cons]
        exact ⟨hp, hrest⟩
      · simp only [setA]
        rw [if_neg hk]
        simp only [List.map_cons, List.nodup_cons]
        refine ⟨?_, ih hrest⟩
        intro hmem
        rcases (mem_keys_setA k p.1 v rest).1 hmem with h1 | h2
        · exact hk h1
        · exact hp h2

theorem filter_key_setA {α β : Type} [DecidableEq α] (k : α) (v : β) (l : List (α × β))
    (h : (l.map Prod.fst).Nodup) :
    (setA k v l).filter (fun p => decide (p.1 = k)) = [(k, v)] := by
  induction l with
  | nil => simp [setA]
  | cons p rest ih =>
      simp only [List.map_cons, List.nodup_cons] at h
      obtain ⟨hp, hrest⟩ := h
      by_cases hk : p.1 = k
      · subst hk
        simp only [setA]
        simp only [if_true]
        rw [List.filter_cons, if_pos (by simp)]
        rw [filter_key_of_not_mem p.1 rest hp]
      · simp only [setA]
        rw [if_neg hk, List.filter_cons, if_neg (by simp [hk])]
        exact ih hrest

/-- C6: Register is last-write-wins with unique keys: registering u at
addrA then at addrB leaves exactly one entry for u, holding addrB; after
each of the two calls the registry's keys are free of duplicates and the
entries for u are exactly one (addrA after the first call, addrB after the
second). -/
theorem register_last_write_wins (reg : Notify.Registry) (u : String) (a b : Nat)
    (hnodup : (reg.map Prod.fst).Nodup) (hu : u ≠ "") :
    lookupA u (Notify.Register (Notify.Register reg u (some a)) u (some b)) =
      some (Notify.Client.mk u b) ∧
    (Notify.Register (Notify.Register reg u (some a)) u (some b)).filter
      (fun p => decide (p.1 = u)) = [(u, Notify.Client.mk u b)] ∧
    (Notify.Register reg u (some a)).filter (fun p => decide (p.1 = u))
      = [(u, Notify.Client.mk u a)] ∧
    ((Notify.Register reg u (some a)).map Prod.fst).Nodup ∧
    ((Notify.Register (Notify.Register reg u (some a)) u (some b)).map Prod.fst).Nodup := by
  have e1 : Notify.Register reg u (some a) = setA u (Notify.Client.mk u a) reg := by
    simp [Notify.Register, hu]
  have e2 : Notify.Register (setA u (Notify.Client.mk u a) reg) u (some b)
      = setA u (Notify.Client.mk u b) (setA u (Notify.Client.mk u a) reg) := by
    simp [Notify.Register, hu]
  rw [e1, e2]
  exact ⟨lookupA_setA_self _ _ _,
    filter_key_setA _ _ _ (nodup_keys_setA _ _ _ hnodup),
    filter_key_setA _ _ _ hnodup,
    nodup_keys_setA _ _ _ hnodup,
    nodup_keys_setA _ _ _ (nodup_keys_setA _ _ _ hnodup)⟩

/-- witness for C6: a two-client registry and a fresh user id "u3". -/
theorem register_last_write_wins_witness :
    (demoRegistry.map Prod.fst).Nodup ∧ "u3" ≠ "" ∧
    (lookupA "u3" (Notify.Register (Notify.Register demoRegistry "u3" (some 20)) "u3"
        (some 21)) = some (Notify.Client.mk "u3" 21) ∧
      (Notify.Register (Notify.Register demoRegistry "u3" (some 20)) "u3" (some 21)).filter
        (fun p => decide (p.1 = "u3")) = [("u3", Notify.Client.mk "u3" 21)] ∧
      (Notify.Register demoRegistry "u3" (some 20)).filter (fun p => decide (p.1 = "u3"))
        = [("u3", Notify.Client.mk "u3" 20)] ∧
      ((Notify.Register demoRegistry "u3" (some 20)).map Prod.fst).Nodup ∧
      ((Notify.Register (Notify.Register demoRegistry "u3" (some 20)) "u3"
        (some 21)).map Prod.fst).Nodup) :=
  ⟨by decide, by decide,
    register_last_write_wins demoRegistry "u3" 20 21 (by decide) (by decide)⟩

theorem broadcastLoop_log (ok1 ok2 : String → Bool) (snap : List Notify.Client) :
    ∀ reg : Notify.Registry, (Notify.broadcastLoop ok1 ok2 reg snap).2 =
      snap.map (fun c => (c.UserID, if ok1 c.UserID then 1 else 2)) := by
  induction snap with
  | nil => intro reg; rfl
  | cons c rest ih =>
      intro reg
      show ((c.UserID, (Notify.sendWithRetry reg c (ok1 c.UserID) (ok2 c.UserID)).2) ::
          (Notify.broadcastLoop ok1 ok2
            (Notify.sendWithRetry reg c (ok1 c.UserID) (ok2 c.UserID)).1 rest).2) = _
      rw [ih]
      by_cases h1 : ok1 c.UserID
      · simp [Notify.sendWithRetry, h1]
      · by_cases h2 : ok2 c.UserID
        · simp [Notify.sendWithRetry, h1, h2]
        · simp [Notify.sendWithRetry, h1, h2]

theorem broadcastLoop_registry (ok1 ok2 : String → Bool) (snap : List Notify.Client) :
    ∀ reg : Notify.Registry, (Notify.broadcastLoop ok1 ok2 reg snap).1 =
      reg.filter (fun p => !((Notify.failedIds ok1 ok2 snap).contains p.1)) := by
  induction snap with
  | nil =>
      intro reg
      simp [Notify.broadcastLoop, Notify.failedIds]
  | cons c rest ih =>
      intro reg
      show (Notify.broadcastLoop ok1 ok2
          (Notify.sendWithRetry reg c (ok1 c.UserID) (ok2 c.UserID)).1 rest).1 = _
      by_cases h1 : ok1 c.UserID
      · have hreg : (Notify.sendWithRetry reg c (ok1 c.UserID) (ok2 c.UserID)).1 = reg := by
          simp [Notify.sendWithRetry, h1]
        have hids : Notify.failedIds ok1 ok2 (c :: rest) = Notify.failedIds ok1 ok2 rest := by
          simp [Notify.failedIds, List.filter_cons, h1]
        rw [hreg, ih reg, hids]
      · by_cases h2 : ok2 c.UserID
        · have hreg : (Notify.sendWithRetry reg c (ok1 c.UserID) (ok2 c.UserID)).1 = reg := by
            simp [Notify.sendWithRetry, h1, h2]
          have hids : Notify.failedIds ok1 ok2 (c :: rest)
              = Notify.failedIds ok1 ok2 rest := by
            simp [Notify.failedIds, List.filter_cons, h1, h2]
          rw [hreg, ih reg, hids]
        · have hreg : (Notify.sendWithRetry reg c (ok1 c.UserID) (ok2 c.UserID)).1 =
              reg.filter (fun p => decide (p.1 ≠ c.UserID)) := by
            simp [Notify.sendWithRetry, h1, h2, Notify.Remove, eraseA]
          have hids : Notify.failedIds ok1 ok2 (c :: rest) =
              c.UserID :: Notify.failedIds ok1 ok2 rest := by
            simp [Notify.failedIds, List.filter_cons, h1, h2]
          rw [hreg, ih, hids, List.filter_filter]
          apply List.filter_congr
          intro p _
          simp only [List.contains_cons, Bool.not_or, Bool.and_comm]
          congr 1
          by_cases hpe : p.1 = c.UserID
          · simp [hpe]
          · simp [hpe]

theorem mem_failedIds (ok1 ok2 : String → Bool) (snap : List Notify.Client) (u : String) :
    u ∈ Notify.failedIds ok1 ok2 snap ↔
      (∃ c ∈ snap, c.UserID = u) ∧ ok1 u = false ∧ ok2 u = false := by
  simp only [Notify.failedIds, List.mem_map, List.mem_filter]
  constructor
  · rintro ⟨c, ⟨hc, hf⟩, rfl⟩
    simp only [Bool.and_eq_true, Bool.not_eq_true'] at hf
    exact ⟨⟨c, hc, rfl⟩, hf.1, hf.2⟩
  · rintro ⟨⟨c, hc, rfl⟩, hf1, hf2⟩
    exact ⟨c, ⟨hc, by simp [hf1, hf2]⟩, rfl⟩

theorem mem_keys_filter_not_contains {β : Type} (l : List (String × β)) (ids : List String)
    (u : String) :
    u ∈ (l.filter (fun p => !(ids.contains p.1))).map Prod.fst ↔
      u ∈ l.map Prod.fst ∧ u ∉ ids := by
  simp only [List.mem_map, List.mem_filter, Bool.not_eq_true']
  constructor
  · rintro ⟨p, ⟨hp, hni⟩, rfl⟩
    exact ⟨⟨p, hp, rfl⟩, by simpa using hni⟩
  · rintro ⟨⟨p, hp, rfl⟩, hni⟩
    exact ⟨p, ⟨hp, by simpa using hni⟩, rfl⟩

/-- C7: for every client in the snapshot taken by BroadcastNewChapter,
exactly one send happens when the first send succeeds and exactly two
(one retry) when it fails, never more; and after the broadcast the client
is still registered exactly when the first or the second send succeeded,
i.e. a client is deregistered precisely when its retry also failed. -/
theorem broadcast_new_chapter_retry_policy (reg : Notify.Registry) (ok1 ok2 : String → Bool)
    (hkeys : ∀ p ∈ reg, (p.2).UserID = p.1) :
    (Notify.BroadcastNewChapter reg ok1 ok2).2 =
      (Notify.Snapshot reg).map (fun c => (c.UserID, if ok1 c.UserID then 1 else 2)) ∧
    (∀ q ∈ (Notify.BroadcastNewChapter reg ok1 ok2).2, 1 ≤ q.2 ∧ q.2 ≤ 2) ∧
    (∀ c ∈ Notify.Snapshot reg,
      (c.UserID ∈ (Notify.BroadcastNewChapter reg ok1 ok2).1.map Prod.fst ↔
        ok1 c.UserID = true ∨ ok2 c.UserID = true)) := by
  refine ⟨broadcastLoop_log ok1 ok2 _ reg, ?_, ?_⟩
  · intro q hq
    rw [Notify.BroadcastNewChapter, broadcastLoop_log] at hq
    rcases List.mem_map.1 hq with ⟨c, _, rfl⟩
    by_cases h1 : ok1 c.UserID
    · simp [h1]
    · simp [h1]
  · intro c hc
    obtain ⟨p, hp, hpc⟩ := List.mem_map.1 hc
    have hkey : c.UserID = p.1 := by
      rw [← hpc]
      exact hkeys p hp
    have hukeys : c.UserID ∈ reg.map Prod.fst := by
      rw [hkey]
      exact List.mem_map_of_mem Prod.fst hp
    rw [Notify.BroadcastNewChapter, broadcastLoop_registry,
      mem_keys_filter_not_contains, mem_failedIds]
    constructor
    · rintro ⟨_, hnf⟩
      by_contra hcon
      push_neg at hcon
      obtain ⟨h1, h2⟩ := hcon
      exact hnf ⟨⟨c, hc, rfl⟩, Bool.not_eq_true _ ▸ h1, Bool.not_eq_true _ ▸ h2⟩
    · intro hor
      refine ⟨hukeys, ?_⟩
      rintro ⟨_, h1, h2⟩
      rcases hor with ho | ho
      · rw [ho] at h1
        cases h1
      · rw [ho] at h2
        cases h2

/-- witness for C7: a registry with two well-keyed clients, where u1's
first send succeeds and u2's two sends both fail. -/
theorem broadcast_new_chapter_retry_policy_witness :
    (∀ p ∈ demoRegistry, (p.2).UserID = p.1) ∧
    ((Notify.BroadcastNewChapter demoRegistry (fun u => u == "u1") (fun _ => false)).2 =
      (Notify.Snapshot demoRegistry).map
        (fun c => (c.UserID, if (c.UserID == "u1") then 1 else 2)) ∧
    (∀ q ∈ (Notify.BroadcastNewChapter demoRegistry (fun u => u == "u1")
        (fun _ => false)).2, 1 ≤ q.2 ∧ q.2 ≤ 2) ∧
    (∀ c ∈ Notify.Snapshot demoRegistry,
      (c.UserID ∈ (Notify.BroadcastNewChapter demoRegistry (fun u => u == "u1")
          (fun _ => false)).1.map Prod.fst ↔
        ((c.UserID == "u1") = true ∨ (fun (_ : String) => false) c.UserID = true)))) :=
  ⟨by decide,
    broadcast_new_chapter_retry_policy demoRegistry (fun u => u == "u1") (fun _ => false)
      (by decide)⟩

/-! Session authority: the four claims about tokens and revocation. -/

/-- C1: the spec claims that after bump_token_version the old token is
rejected and a freshly signed token (embedding V+1) is accepted. In the
code, Sign never assigns the claims' TokenVersion, so every token embeds
version 0: the old token is indeed rejected after the bump, but the token
freshly signed for the re-read user (now at stored version 1) is rejected
as well, contradicting the claim's acceptance half. -/
theorem fresh_token_rejected_after_bump :
    (Auth.BumpTokenVersion demoStore0 "u1").2 = true ∧
    Auth.authVersionOK demoStore0 (Auth.TokenService.Sign demoTS demoUserV0 100).claims = true ∧
    Auth.authVersionOK demoStore1 (Auth.TokenService.Sign demoTS demoUserV0 100).claims = false ∧
    lookupA "u1" demoStore1 = some { demoUserV0 with TokenVersion := 1 } ∧
    Auth.authVersionOK demoStore1
      (Auth.TokenService.Sign demoTS ((lookupA "u1" demoStore1).getD demoUserV0) 200).claims
      = false := by
  decide

/-- C2: Sign does embed user id, username, email, issued-at and expiry
timestamps and fixes the HS256 algorithm, but for a user whose stored
token_version is 1 the produced claims carry TokenVersion 0, not the
user's current version: jwt.go's struct literal never assigns the field
(the Claims struct does not even declare it, although middleware.go reads
it). -/
theorem sign_embeds_fields_but_not_version :
    Auth.TokenService.Sign demoTS { demoUserV0 with TokenVersion := 1 } 100 =
      { alg := "HS256"
        claims :=
          { UserID := "u1", Username := "alice", Email := "alice@example.com"
            Issuer := "mangahub", Subject := "u1", ExpiresAt := 3700, IssuedAt := 100
            TokenVersion := 0 } } ∧
    ({ demoUserV0 with TokenVersion := 1 } : Auth.User).TokenVersion = 1 := by
  decide

/-- C4: UpdatePasswordAndBumpTokenVersion is atomic: every failing run
(any injected transaction failure, or a missing user) leaves the store
unchanged, and every successful run sets the stored password hash and
increments the stored token_version by exactly 1 in one step, leaving all
other users untouched; no outcome carries the new password with the old
version. -/
theorem update_password_and_bump_version_atomic (st : Auth.UserStore) (id ph : String)
    (f : Auth.TxFailure) :
    ((Auth.UpdatePasswordAndBumpTokenVersion st id ph f).2 = false ∧
       (Auth.UpdatePasswordAndBumpTokenVersion st id ph f).1 = st) ∨
    ((Auth.UpdatePasswordAndBumpTokenVersion st id ph f).2 = true ∧
       ∃ u, lookupA id st = some u ∧
         ∀ k, lookupA k (Auth.UpdatePasswordAndBumpTokenVersion st id ph f).1 =
           if k = id then
             some { u with PasswordHash := ph, TokenVersion := u.TokenVersion + 1 }
           else lookupA k st) := by
  cases f with
  | noFail =>
      cases hl : lookupA id st with
      | none => left; simp [Auth.UpdatePasswordAndBumpTokenVersion, hl]
      | some u =>
          right
          refine ⟨by simp [Auth.UpdatePasswordAndBumpTokenVersion, hl], u, rfl, ?_⟩
          intro k
          by_cases hk : k = id
          · subst hk
            simp [Auth.UpdatePasswordAndBumpTokenVersion, hl, lookupA_setA_self]
          · simp [Auth.UpdatePasswordAndBumpTokenVersion, hl, hk,
              lookupA_setA_ne id k _ st hk]
  | atBegin => left; simp [Auth.UpdatePasswordAndBumpTokenVersion]
  | atExec => left; simp [Auth.UpdatePasswordAndBumpTokenVersion]
  | atRows => left; simp [Auth.UpdatePasswordAndBumpTokenVersion]
  | atCommit => left; simp [Auth.UpdatePasswordAndBumpTokenVersion]

/-- C10: GetTokenVersion maps a missing user row to version 0 with no
error (the sql.ErrNoRows branch), so the middleware's revocation check
accepts claims whose user id is absent from the store whenever the
embedded token version is 0. -/
theorem missing_user_version_zero_accepted (st : Auth.UserStore) (id : String)
    (c : Auth.Claims) (hmiss : lookupA id st = none) (hcu : c.UserID = id)
    (hcv : c.TokenVersion = 0) :
    Auth.GetTokenVersion st id = Except.ok 0 ∧ Auth.authVersionOK st c = true := by
  constructor
  · simp [Auth.GetTokenVersion, hmiss]
  · simp [Auth.authVersionOK, Auth.GetTokenVersion, hcu, hmiss, hcv]

/-- witness for C10: the empty store and a version-0 claims object for the
absent id "ghost". -/
theorem missing_user_version_zero_accepted_witness :
    lookupA "ghost" ([] : Auth.UserStore) = none ∧ demoGhostClaims.UserID = "ghost" ∧
    demoGhostClaims.TokenVersion = 0 ∧
    (Auth.GetTokenVersion [] "ghost" = Except.ok 0 ∧
      Auth.authVersionOK [] demoGhostClaims = true) :=
  ⟨rfl, rfl, rfl, missing_user_version_zero_accepted [] "ghost" demoGhostClaims rfl rfl rfl⟩

end MangaNerd
